import Mathlib

/-!
Board support package of the nrf52840pdk: `hal_bsp.c`.

A shallow embedding of `hw/bsp/nrf52840pdk/src/hal_bsp.c`:

* `hal_bsp_get_nvic_priority` is a pure function;
* `hal_bsp_init` is straight-line code over a small monad that records every
  collaborator call and stops at the first failed `assert`;
* `bsp_spi_read_buf` and `bsp_spi_write_buf` run over an explicit model of the
  SPI0 register block (`NRF_SPI_Type`), every register access being logged.

Bytes (`uint8_t`) are natural numbers, reduced modulo 256 where the source
casts or where the loop counter is incremented. The two SPI routines are
compiled under `BSP_USE_HAL_SPI`; `assert` is taken to be active.
-/

namespace HalBsp

/-! ## The SPI register block and a mock bus behind it -/

/-- One access of the CPU to a register of the SPI block. -/
inductive Access where
  | wrEVENTS_READY (v : Nat)
  | wrTXD (v : Nat)
  | rdEVENTS_READY (v : Nat)
  | rdRXD (v : Nat)
  deriving DecidableEq

/-- The registers of `NRF_SPI0` that the routines touch (`EVENTS_READY`,
`RXD`; `TXD` is write-only and feeds `txq`), together with the bus behind
them: `txq` holds the bytes written to `TXD` that are not clocked out yet,
`mosi` records the bytes clocked out to the slave, `miso` is the sequence of
bytes the slave will shift in (one per transferred byte), `lat` is the number
of extra polls one byte transfer takes and `clk` the polls left for the byte
in flight. `log` is the history of register accesses. -/
structure NRF_SPI_Type where
  EVENTS_READY : Nat
  RXD : Nat
  txq : List Nat
  mosi : List Nat
  miso : List Nat
  lat : Nat
  clk : Nat
  log : List Access
  deriving DecidableEq

/-- Register write `spi->EVENTS_READY = v;`. -/
def wrEVENTS_READY (v : Nat) (spi : NRF_SPI_Type) : NRF_SPI_Type :=
  { spi with EVENTS_READY := v, log := spi.log ++ [Access.wrEVENTS_READY v] }

/-- Register write `spi->TXD = v;`, which queues one byte for transmission. -/
def wrTXD (v : Nat) (spi : NRF_SPI_Type) : NRF_SPI_Type :=
  { spi with txq := spi.txq ++ [v], log := spi.log ++ [Access.wrTXD v] }

/-- Register read `spi->RXD`. -/
def rdRXD (spi : NRF_SPI_Type) : Nat × NRF_SPI_Type :=
  (spi.RXD, { spi with log := spi.log ++ [Access.rdRXD spi.RXD] })

/-- Progress of the bus while the CPU polls: when the ready event is not
pending and a byte is queued, the transfer advances; when it completes the
byte is recorded on `mosi`, the slave's next byte is moved to `RXD` and the
ready event is raised. -/
def tick (spi : NRF_SPI_Type) : NRF_SPI_Type :=
  if spi.EVENTS_READY = 0 then
    match spi.txq with
    | [] => spi
    | b :: q =>
      if spi.clk = 0 then
        { spi with EVENTS_READY := 1, RXD := spi.miso.headD 0, miso := spi.miso.tail,
                   txq := q, mosi := spi.mosi ++ [b], clk := spi.lat }
      else { spi with clk := spi.clk - 1 }
  else spi

/-- Register read `spi->EVENTS_READY` (one poll of the busy-wait). -/
def rdEVENTS_READY (spi : NRF_SPI_Type) : Nat × NRF_SPI_Type :=
  let s := tick spi
  (s.EVENTS_READY, { s with log := s.log ++ [Access.rdEVENTS_READY s.EVENTS_READY] })

/-- Busy-wait `while (!spi->EVENTS_READY) {}` with a bound on the number of
polls; `none` when the event was not seen within the bound. -/
def waitReady : Nat → NRF_SPI_Type → Option NRF_SPI_Type
  | 0, _ => none
  | fuel + 1, spi =>
    let (v, s) := rdEVENTS_READY spi
    if v ≠ 0 then some s else waitReady fuel s

/-- Store `buf[i] = v;` for an `int` index; `none` outside the buffer. -/
def store (buf : List Nat) (i : Int) (v : Nat) : Option (List Nat) :=
  if 0 ≤ i ∧ i.toNat < buf.length then some (buf.set i.toNat v) else none

/-- The `while (size != 0)` loop of `bsp_spi_read_buf` (lines 333-348). -/
def bsp_spi_read_buf_loop (fuel : Nat) :
    Nat → Int → List Nat → NRF_SPI_Type → Option (List Nat × NRF_SPI_Type)
  | 0, _, buf, spi => some (buf, spi)
  | size + 1, i, buf, spi => do
    let spi := wrTXD 0 spi
    let spi ← waitReady fuel spi
    let spi := wrEVENTS_READY 0 spi
    let (rx, spi) := rdRXD spi
    let rxval := rx % 256
    let buf ← if 0 ≤ i then store buf i rxval else some buf
    -- size -= 1; ++i;
    let i := i + 1
    if size = 0 then
      let spi ← waitReady fuel spi
      let spi := wrEVENTS_READY 0 spi
      let (rx, spi) := rdRXD spi
      let buf ← store buf i (rx % 256)
      bsp_spi_read_buf_loop fuel size i buf spi
    else
      bsp_spi_read_buf_loop fuel size i buf spi

/-- Routine `bsp_spi_read_buf(addr, buf, size)` (lines 318-349). The result is
the buffer and the register block on return, `none` when a busy-wait is not
over within `fuel` polls or a store falls outside the buffer. -/
def bsp_spi_read_buf (fuel : Nat) (addr : Nat) (buf : List Nat) (size : Nat)
    (spi : NRF_SPI_Type) : Option (List Nat × NRF_SPI_Type) :=
  if size = 0 then some (buf, spi)
  else
    let i : Int := -1
    let spi := wrEVENTS_READY 0 spi
    let spi := wrTXD (addr % 256) spi
    bsp_spi_read_buf_loop fuel size i buf spi

/-- The `for (i = 0; i < size; ++i)` loop of `bsp_spi_write_buf`
(lines 367-372); `i` is a `uint8_t`, the first argument bounds the number of
iterations. -/
def bsp_spi_write_buf_loop (fuel : Nat) (buf : List Nat) (size : Nat) :
    Nat → Nat → NRF_SPI_Type → Option NRF_SPI_Type
  | 0, _, _ => none
  | n + 1, i, spi =>
    if i < size then do
      let b ← buf[i]?
      let spi := wrTXD b spi
      let spi ← waitReady fuel spi
      let (_, spi) := rdRXD spi
      let spi := wrEVENTS_READY 0 spi
      bsp_spi_write_buf_loop fuel buf size n ((i + 1) % 256) spi
    else some spi

/-- Routine `bsp_spi_write_buf(addr, buf, size)` (lines 351-378). The result
is the register block on return, `none` when a busy-wait or the loop is not
over within `fuel` steps or a load falls outside the buffer. -/
def bsp_spi_write_buf (fuel : Nat) (addr : Nat) (buf : List Nat) (size : Nat)
    (spi : NRF_SPI_Type) : Option NRF_SPI_Type :=
  if size = 0 then some spi
  else do
    let spi := wrEVENTS_READY 0 spi
    let spi := wrTXD (addr % 256) spi
    let spi ← bsp_spi_write_buf_loop fuel buf size fuel 0 spi
    let spi ← waitReady fuel spi
    let (_, spi) := rdRXD spi
    let spi := wrEVENTS_READY 0 spi
    pure spi

/-! ## Mock buses and observations of the access log -/

/-- An idle bus whose slave will answer with the bytes `miso`, each byte
transfer taking `lat` extra polls. -/
def idleBus (lat : Nat) (miso : List Nat) : NRF_SPI_Type :=
  { EVENTS_READY := 0, RXD := 0, txq := [], mosi := [], miso := miso,
    lat := lat, clk := lat, log := [] }

/-- The loopback slave between a write and the following read: the data
bytes it recorded after the address byte (`mosi.tail`) become its answers to
the dummy bytes, after the byte `x` with which it answers the address byte;
its record starts afresh. -/
def loopback (x : Nat) (spi : NRF_SPI_Type) : NRF_SPI_Type :=
  { spi with miso := x :: spi.mosi.tail, mosi := [] }

/-- The values written to `TXD`, in order. -/
def txWrites (l : List Access) : List Nat :=
  l.filterMap fun a => match a with
    | Access.wrTXD v => some v
    | _ => none

/-- The number of reads of `RXD`. -/
def rxReads (l : List Access) : Nat :=
  l.countP fun a => match a with
    | Access.rdRXD _ => true
    | _ => false

/-- The number of completed busy-waits (polls that saw the ready event). -/
def readyDrains (l : List Access) : Nat :=
  l.countP fun a => match a with
    | Access.rdEVENTS_READY v => v != 0
    | _ => false

/-- The number of writes to `EVENTS_READY` (clears of the ready event). -/
def readyClears (l : List Access) : Nat :=
  l.countP fun a => match a with
    | Access.wrEVENTS_READY _ => true
    | _ => false

/-- The accesses of one busy-wait that starts `k` polls before the event. -/
def pollTrace (k : Nat) : List Access :=
  List.replicate k (Access.rdEVENTS_READY 0) ++ [Access.rdEVENTS_READY 1]

/-- The bus after one dummy byte was queued behind the byte `a` in flight,
the ready event awaited and cleared, and `RXD` read (lines 334-337). -/
def afterDummy (s : NRF_SPI_Type) (a : Nat) : NRF_SPI_Type :=
  { s with EVENTS_READY := 0, RXD := s.miso.headD 0, miso := s.miso.tail, txq := [0],
           mosi := s.mosi ++ [a], clk := s.lat,
           log := s.log ++ ([Access.wrTXD 0] ++ pollTrace s.clk ++
             [Access.wrEVENTS_READY 0, Access.rdRXD (s.miso.headD 0)]) }

/-- The bus after the last byte in flight was awaited, the event cleared and
`RXD` read (lines 344-346). -/
def afterLast (s : NRF_SPI_Type) (a : Nat) : NRF_SPI_Type :=
  { s with EVENTS_READY := 0, RXD := s.miso.headD 0, miso := s.miso.tail, txq := [],
           mosi := s.mosi ++ [a], clk := s.lat,
           log := s.log ++ (pollTrace s.clk ++
             [Access.wrEVENTS_READY 0, Access.rdRXD (s.miso.headD 0)]) }

/-- The drain order "wait, clear the flag, then read `RXD`": every poll that
sees the ready event is followed at once by a clear of the event and then by
the read of `RXD`, and `RXD` is read nowhere else. -/
def drainsClearThenRead : List Access → Bool
  | [] => true
  | Access.rdEVENTS_READY 0 :: l => drainsClearThenRead l
  | Access.rdEVENTS_READY _ :: Access.wrEVENTS_READY 0 :: Access.rdRXD _ :: l =>
    drainsClearThenRead l
  | Access.rdEVENTS_READY _ :: _ => false
  | Access.rdRXD _ :: _ => false
  | _ :: l => drainsClearThenRead l

/-- The drain order "wait, read `RXD`, then clear the flag". -/
def drainsReadThenClear : List Access → Bool
  | [] => true
  | Access.rdEVENTS_READY 0 :: l => drainsReadThenClear l
  | Access.rdEVENTS_READY _ :: Access.rdRXD _ :: Access.wrEVENTS_READY 0 :: l =>
    drainsReadThenClear l
  | Access.rdEVENTS_READY _ :: _ => false
  | Access.rdRXD _ :: _ => false
  | _ :: l => drainsReadThenClear l

/-! ## Interrupt priorities -/

/-- Function `hal_bsp_get_nvic_priority(irq_num, pri)` (lines 174-188). The
constant `RADIO_IRQn` comes from `nrf52840.h` and is a parameter. -/
def hal_bsp_get_nvic_priority (RADIO_IRQn : Int) (irq_num : Int) (pri : Nat) : Nat :=
  let cfg_pri :=
    if irq_num = RADIO_IRQn then 0
    else pri
  cfg_pri

/-! ## Board bring-up -/

/-- The build-time options (`MYNEWT_VAL`) that `hal_bsp_init` tests or
uses. -/
structure Config where
  TIMER_0 : Bool
  TIMER_1 : Bool
  TIMER_2 : Bool
  TIMER_3 : Bool
  TIMER_4 : Bool
  TIMER_5 : Bool
  ADC_0 : Bool
  PWM_0 : Bool
  PWM_1 : Bool
  PWM_2 : Bool
  PWM_3 : Bool
  SOFT_PWM : Bool
  OS_CPUTIME_TIMER_NUM : Int
  OS_CPUTIME_FREQ : Nat
  I2C_0 : Bool
  SPI_0_MASTER : Bool
  SPI_0_SLAVE : Bool
  UART_0 : Bool
  UART_1 : Bool
  deriving DecidableEq

/-- The static device objects whose address is handed to `os_dev_create`.
The object `os_bsp_pwm3` is named by the call at line 265; the file declares
no object of that name (line 115 declares `os_bsp_pwm2` a second time), so a
build with `PWM_3` set does not compile as the file stands. -/
inductive Dev where
  | os_bsp_adc0 | os_bsp_pwm0 | os_bsp_pwm1 | os_bsp_pwm2 | os_bsp_pwm3 | os_bsp_spwm
  | os_bsp_uart0 | os_bsp_bitbang_uart1
  deriving DecidableEq

/-- The third argument of `hal_spi_init`. -/
inductive SpiType where
  | HAL_SPI_TYPE_MASTER | HAL_SPI_TYPE_SLAVE
  deriving DecidableEq

/-- A call of `hal_bsp_init` to a collaborator, with its arguments; init
stages, priorities, callbacks and pointers are kept as the source text. -/
inductive Call where
  | hal_system_clock_start
  | hal_timer_init (timer_num : Nat)
  | os_dev_create (dev : Dev) (name : String) (stage : String) (priority : String)
      (od_init : String) (arg : String)
  | os_cputime_init (clock_freq : Nat)
  | hal_i2c_init (i2c_num : Nat) (cfg : String)
  | hal_spi_init (spi_num : Nat) (cfg : String) (spi_type : SpiType)
  deriving DecidableEq

/-- Boot code: a computation over the list of calls made so far, that ends
with a value or is halted (`none`) by a failed `assert`. -/
def BootM (α : Type) : Type := List Call → Option α × List Call

instance : Monad BootM where
  pure a := fun t => (some a, t)
  bind m f := fun t =>
    match m t with
    | (some a, t') => f a t'
    | (none, t') => (none, t')

/-- A call to a collaborator that returns the result code given by `env`. -/
def call (env : Call → Int) (c : Call) : BootM Int :=
  fun t => (some (env c), t ++ [c])

/-- A call to a collaborator that returns nothing. -/
def callVoid (c : Call) : BootM Unit :=
  fun t => (some (), t ++ [c])

/-- Statement `assert(b);`, which halts the boot when `b` is false. -/
def assert (b : Bool) : BootM Unit :=
  fun t => (if b then some () else none, t)

/-- Routine `hal_bsp_init()` (lines 190-315) for the build options `cfg`,
the collaborators answering with the result codes `env`. Each `#if` is an
`if` on the option. The stores `pwmN_idx = N;` to the board's own globals are
not calls and are left out. -/
def hal_bsp_init (cfg : Config) (env : Call → Int) : BootM Unit := do
  callVoid Call.hal_system_clock_start
  if cfg.TIMER_0 then
    let rc ← call env (Call.hal_timer_init 0)
    assert (rc == 0)
  if cfg.TIMER_1 then
    let rc ← call env (Call.hal_timer_init 1)
    assert (rc == 0)
  if cfg.TIMER_2 then
    let rc ← call env (Call.hal_timer_init 2)
    assert (rc == 0)
  if cfg.TIMER_3 then
    let rc ← call env (Call.hal_timer_init 3)
    assert (rc == 0)
  if cfg.TIMER_4 then
    let rc ← call env (Call.hal_timer_init 4)
    assert (rc == 0)
  if cfg.TIMER_5 then
    let rc ← call env (Call.hal_timer_init 5)
    assert (rc == 0)
  if cfg.ADC_0 then
    let rc ← call env (Call.os_dev_create Dev.os_bsp_adc0 "adc0" "OS_DEV_INIT_KERNEL"
      "OS_DEV_INIT_PRIO_DEFAULT" "nrf52_adc_dev_init" "&os_bsp_adc0_config")
    assert (rc == 0)
  if cfg.PWM_0 then
    let rc ← call env (Call.os_dev_create Dev.os_bsp_pwm0 "pwm0" "OS_DEV_INIT_KERNEL"
      "OS_DEV_INIT_PRIO_DEFAULT" "nrf52_pwm_dev_init" "&pwm0_idx")
    assert (rc == 0)
  if cfg.PWM_1 then
    let rc ← call env (Call.os_dev_create Dev.os_bsp_pwm1 "pwm1" "OS_DEV_INIT_KERNEL"
      "OS_DEV_INIT_PRIO_DEFAULT" "nrf52_pwm_dev_init" "&pwm1_idx")
    assert (rc == 0)
  if cfg.PWM_2 then
    let rc ← call env (Call.os_dev_create Dev.os_bsp_pwm2 "pwm2" "OS_DEV_INIT_KERNEL"
      "OS_DEV_INIT_PRIO_DEFAULT" "nrf52_pwm_dev_init" "&pwm2_idx")
    assert (rc == 0)
  if cfg.PWM_3 then
    let rc ← call env (Call.os_dev_create Dev.os_bsp_pwm3 "pwm2" "OS_DEV_INIT_KERNEL"
      "OS_DEV_INIT_PRIO_DEFAULT" "nrf52_pwm_dev_init" "&pwm3_idx")
    assert (rc == 0)
  if cfg.SOFT_PWM then
    let rc ← call env (Call.os_dev_create Dev.os_bsp_spwm "spwm" "OS_DEV_INIT_KERNEL"
      "OS_DEV_INIT_PRIO_DEFAULT" "soft_pwm_dev_init" "NULL")
    assert (rc == 0)
  if 0 ≤ cfg.OS_CPUTIME_TIMER_NUM then
    let rc ← call env (Call.os_cputime_init cfg.OS_CPUTIME_FREQ)
    assert (rc == 0)
  if cfg.I2C_0 then
    let rc ← call env (Call.hal_i2c_init 0 "&hal_i2c0_cfg")
    assert (rc == 0)
  if cfg.SPI_0_MASTER then
    let rc ← call env (Call.hal_spi_init 0 "&os_bsp_spi0m_cfg" SpiType.HAL_SPI_TYPE_MASTER)
    assert (rc == 0)
  if cfg.SPI_0_SLAVE then
    let rc ← call env (Call.hal_spi_init 0 "&os_bsp_spi0s_cfg" SpiType.HAL_SPI_TYPE_SLAVE)
    assert (rc == 0)
  if cfg.UART_0 then
    let rc ← call env (Call.os_dev_create Dev.os_bsp_uart0 "uart0" "OS_DEV_INIT_PRIMARY"
      "0" "uart_hal_init" "&os_bsp_uart0_cfg")
    assert (rc == 0)
  if cfg.UART_1 then
    let rc ← call env (Call.os_dev_create Dev.os_bsp_bitbang_uart1 "uart1"
      "OS_DEV_INIT_PRIMARY" "0" "uart_bitbang_init" "&os_bsp_uart1_cfg")
    assert (rc == 0)

/-! ## The bring-up as the specification describes it -/

/-- The peripherals selected by the build-time options. -/
inductive Periph where
  | TIMER_0 | TIMER_1 | TIMER_2 | TIMER_3 | TIMER_4 | TIMER_5
  | ADC_0 | PWM_0 | PWM_1 | PWM_2 | PWM_3 | SOFT_PWM | OS_CPUTIME
  | I2C_0 | SPI_0_MASTER | SPI_0_SLAVE | UART_0 | UART_1
  deriving DecidableEq

/-- The presence flag of a peripheral (the condition of its `#if`). -/
def Config.enabled (cfg : Config) : Periph → Bool
  | Periph.TIMER_0 => cfg.TIMER_0
  | Periph.TIMER_1 => cfg.TIMER_1
  | Periph.TIMER_2 => cfg.TIMER_2
  | Periph.TIMER_3 => cfg.TIMER_3
  | Periph.TIMER_4 => cfg.TIMER_4
  | Periph.TIMER_5 => cfg.TIMER_5
  | Periph.ADC_0 => cfg.ADC_0
  | Periph.PWM_0 => cfg.PWM_0
  | Periph.PWM_1 => cfg.PWM_1
  | Periph.PWM_2 => cfg.PWM_2
  | Periph.PWM_3 => cfg.PWM_3
  | Periph.SOFT_PWM => cfg.SOFT_PWM
  | Periph.OS_CPUTIME => decide (0 ≤ cfg.OS_CPUTIME_TIMER_NUM)
  | Periph.I2C_0 => cfg.I2C_0
  | Periph.SPI_0_MASTER => cfg.SPI_0_MASTER
  | Periph.SPI_0_SLAVE => cfg.SPI_0_SLAVE
  | Periph.UART_0 => cfg.UART_0
  | Periph.UART_1 => cfg.UART_1

/-- The peripheral that a device-registry or driver-initialisation call is
made for, read off the device object, the unit number or the bus role. -/
def Call.periph : Call → Option Periph
  | Call.hal_system_clock_start => none
  | Call.hal_timer_init 0 => some Periph.TIMER_0
  | Call.hal_timer_init 1 => some Periph.TIMER_1
  | Call.hal_timer_init 2 => some Periph.TIMER_2
  | Call.hal_timer_init 3 => some Periph.TIMER_3
  | Call.hal_timer_init 4 => some Periph.TIMER_4
  | Call.hal_timer_init 5 => some Periph.TIMER_5
  | Call.hal_timer_init _ => none
  | Call.os_dev_create Dev.os_bsp_adc0 _ _ _ _ _ => some Periph.ADC_0
  | Call.os_dev_create Dev.os_bsp_pwm0 _ _ _ _ _ => some Periph.PWM_0
  | Call.os_dev_create Dev.os_bsp_pwm1 _ _ _ _ _ => some Periph.PWM_1
  | Call.os_dev_create Dev.os_bsp_pwm2 _ _ _ _ _ => some Periph.PWM_2
  | Call.os_dev_create Dev.os_bsp_pwm3 _ _ _ _ _ => some Periph.PWM_3
  | Call.os_dev_create Dev.os_bsp_spwm _ _ _ _ _ => some Periph.SOFT_PWM
  | Call.os_dev_create Dev.os_bsp_uart0 _ _ _ _ _ => some Periph.UART_0
  | Call.os_dev_create Dev.os_bsp_bitbang_uart1 _ _ _ _ _ => some Periph.UART_1
  | Call.os_cputime_init _ => some Periph.OS_CPUTIME
  | Call.hal_i2c_init 0 _ => some Periph.I2C_0
  | Call.hal_i2c_init _ _ => none
  | Call.hal_spi_init 0 _ SpiType.HAL_SPI_TYPE_MASTER => some Periph.SPI_0_MASTER
  | Call.hal_spi_init 0 _ SpiType.HAL_SPI_TYPE_SLAVE => some Periph.SPI_0_SLAVE
  | Call.hal_spi_init _ _ _ => none

/-- The fixed order of the bring-up steps: each peripheral with its call. -/
def bootOrder (freq : Nat) : List (Periph × Call) :=
  [ (Periph.TIMER_0, Call.hal_timer_init 0),
    (Periph.TIMER_1, Call.hal_timer_init 1),
    (Periph.TIMER_2, Call.hal_timer_init 2),
    (Periph.TIMER_3, Call.hal_timer_init 3),
    (Periph.TIMER_4, Call.hal_timer_init 4),
    (Periph.TIMER_5, Call.hal_timer_init 5),
    (Periph.ADC_0, Call.os_dev_create Dev.os_bsp_adc0 "adc0" "OS_DEV_INIT_KERNEL"
      "OS_DEV_INIT_PRIO_DEFAULT" "nrf52_adc_dev_init" "&os_bsp_adc0_config"),
    (Periph.PWM_0, Call.os_dev_create Dev.os_bsp_pwm0 "pwm0" "OS_DEV_INIT_KERNEL"
      "OS_DEV_INIT_PRIO_DEFAULT" "nrf52_pwm_dev_init" "&pwm0_idx"),
    (Periph.PWM_1, Call.os_dev_create Dev.os_bsp_pwm1 "pwm1" "OS_DEV_INIT_KERNEL"
      "OS_DEV_INIT_PRIO_DEFAULT" "nrf52_pwm_dev_init" "&pwm1_idx"),
    (Periph.PWM_2, Call.os_dev_create Dev.os_bsp_pwm2 "pwm2" "OS_DEV_INIT_KERNEL"
      "OS_DEV_INIT_PRIO_DEFAULT" "nrf52_pwm_dev_init" "&pwm2_idx"),
    (Periph.PWM_3, Call.os_dev_create Dev.os_bsp_pwm3 "pwm2" "OS_DEV_INIT_KERNEL"
      "OS_DEV_INIT_PRIO_DEFAULT" "nrf52_pwm_dev_init" "&pwm3_idx"),
    (Periph.SOFT_PWM, Call.os_dev_create Dev.os_bsp_spwm "spwm" "OS_DEV_INIT_KERNEL"
      "OS_DEV_INIT_PRIO_DEFAULT" "soft_pwm_dev_init" "NULL"),
    (Periph.OS_CPUTIME, Call.os_cputime_init freq),
    (Periph.I2C_0, Call.hal_i2c_init 0 "&hal_i2c0_cfg"),
    (Periph.SPI_0_MASTER,
      Call.hal_spi_init 0 "&os_bsp_spi0m_cfg" SpiType.HAL_SPI_TYPE_MASTER),
    (Periph.SPI_0_SLAVE,
      Call.hal_spi_init 0 "&os_bsp_spi0s_cfg" SpiType.HAL_SPI_TYPE_SLAVE),
    (Periph.UART_0, Call.os_dev_create Dev.os_bsp_uart0 "uart0" "OS_DEV_INIT_PRIMARY"
      "0" "uart_hal_init" "&os_bsp_uart0_cfg"),
    (Periph.UART_1, Call.os_dev_create Dev.os_bsp_bitbang_uart1 "uart1"
      "OS_DEV_INIT_PRIMARY" "0" "uart_bitbang_init" "&os_bsp_uart1_cfg") ]

/-- The steps of the fixed order whose peripheral is enabled. -/
def enabledSteps (cfg : Config) : List Call :=
  ((bootOrder cfg.OS_CPUTIME_FREQ).filter fun pc => cfg.enabled pc.1).map Prod.snd

/-- Fail-fast run of a list of steps: each call is made and its result
checked in turn, the first non-zero result halts the run. The result is the
outcome (`none` when halted) and the calls made. -/
def runSteps (env : Call → Int) : List Call → Option Unit × List Call
  | [] => (some (), [])
  | c :: cs =>
    if env c = 0 then ((runSteps env cs).1, c :: (runSteps env cs).2) else (none, [c])

/-- The boot code `m` makes the calls of the fail-fast run of `l`. -/
def Sim (env : Call → Int) (m : BootM Unit) (l : List Call) : Prop :=
  ∀ t, m t = ((runSteps env l).1, t ++ (runSteps env l).2)

/-- The calls that `hal_bsp_init` makes on a fresh boot. -/
def bootCalls (cfg : Config) (env : Call → Int) : List Call :=
  (hal_bsp_init cfg env []).2

/-- The outcome of `hal_bsp_init` on a fresh boot: `some ()` when it returns,
`none` when an `assert` halted it. -/
def bootOutcome (cfg : Config) (env : Call → Int) : Option Unit :=
  (hal_bsp_init cfg env []).1

/-- A call that initialises a hardware timer. -/
def Call.isTimerInit : Call → Bool
  | Call.hal_timer_init _ => true
  | _ => false

/-- The call that activates the tick source. -/
def Call.isCputimeInit : Call → Bool
  | Call.os_cputime_init _ => true
  | _ => false

/-- A call that initialises an I2C or SPI bus. -/
def Call.isBusInit : Call → Bool
  | Call.hal_i2c_init _ _ => true
  | Call.hal_spi_init _ _ _ => true
  | _ => false

/-- A call that registers a UART device (`uart0`, `uart1`). -/
def Call.isUartCreate : Call → Bool
  | Call.os_dev_create Dev.os_bsp_uart0 _ _ _ _ _ => true
  | Call.os_dev_create Dev.os_bsp_bitbang_uart1 _ _ _ _ _ => true
  | _ => false

/-- A configuration with every peripheral enabled. -/
def allOn : Config :=
  { TIMER_0 := true, TIMER_1 := true, TIMER_2 := true, TIMER_3 := true,
    TIMER_4 := true, TIMER_5 := true, ADC_0 := true, PWM_0 := true, PWM_1 := true,
    PWM_2 := true, PWM_3 := true, SOFT_PWM := true, OS_CPUTIME_TIMER_NUM := 0,
    OS_CPUTIME_FREQ := 1000000, I2C_0 := true, SPI_0_MASTER := true,
    SPI_0_SLAVE := true, UART_0 := true, UART_1 := true }

/-- The order of two calls, `a` made before `b`, is allowed: the tick source
is not activated before a timer is initialised, no bus initialisation or UART
registration comes before the tick source, and after a UART registration come
only UART registrations. -/
def Call.mayPrecede (a b : Call) : Bool :=
  (!(a.isCputimeInit && b.isTimerInit)) &&
  (!((a.isBusInit || a.isUartCreate) && b.isCputimeInit)) &&
  (!(a.isUartCreate && !b.isUartCreate))

/-- The configuration with every peripheral but `PWM_3` enabled. -/
def allButPwm3 : Config :=
  { allOn with PWM_3 := false }

/-- The configuration with every peripheral but `PWM_3` and `UART_1`
enabled. -/
def allButPwm3Uart1 : Config :=
  { allButPwm3 with UART_1 := false }

/-- The result codes of a boot in which only `hal_timer_init(2)` fails. -/
def failTimer2 (c : Call) : Int :=
  if c = Call.hal_timer_init 2 then -1 else 0

/-! ## The busy-wait -/

theorem waitReady_spec (fuel : Nat) (s : NRF_SPI_Type) (b : Nat) (q : List Nat)
    (hE : s.EVENTS_READY = 0) (hq : s.txq = b :: q) (hf : s.clk < fuel) :
    waitReady fuel s = some
      { s with EVENTS_READY := 1, RXD := s.miso.headD 0, miso := s.miso.tail,
               txq := q, mosi := s.mosi ++ [b], clk := s.lat,
               log := s.log ++ pollTrace s.clk } := by
  induction fuel generalizing s with
  | zero => omega
  | succ fuel ih =>
    by_cases hc : s.clk = 0
    · simp [waitReady, rdEVENTS_READY, tick, hE, hq, hc, pollTrace]
    · have h1 : waitReady (fuel + 1) s =
          waitReady fuel { s with clk := s.clk - 1,
                                  log := s.log ++ [Access.rdEVENTS_READY 0] } := by
        simp [waitReady, rdEVENTS_READY, tick, hE, hq, hc]
      obtain ⟨k, hk⟩ : ∃ k, s.clk = k + 1 := ⟨s.clk - 1, by omega⟩
      rw [h1, ih { s with clk := s.clk - 1, log := s.log ++ [Access.rdEVENTS_READY 0] }
        hE hq (by simp only; omega)]
      simp [pollTrace, hk, List.replicate_succ]

/-! ## Projections of the access log -/

@[simp]
theorem txWrites_append (l₁ l₂ : List Access) :
    txWrites (l₁ ++ l₂) = txWrites l₁ ++ txWrites l₂ := by
  simp [txWrites]

@[simp]
theorem rxReads_append (l₁ l₂ : List Access) :
    rxReads (l₁ ++ l₂) = rxReads l₁ + rxReads l₂ := by
  simp [rxReads]

@[simp]
theorem readyDrains_append (l₁ l₂ : List Access) :
    readyDrains (l₁ ++ l₂) = readyDrains l₁ + readyDrains l₂ := by
  simp [readyDrains]

@[simp]
theorem readyClears_append (l₁ l₂ : List Access) :
    readyClears (l₁ ++ l₂) = readyClears l₁ + readyClears l₂ := by
  simp [readyClears]

@[simp]
theorem txWrites_nil : txWrites [] = [] := rfl
@[simp]
theorem rxReads_nil : rxReads [] = 0 := rfl
@[simp]
theorem readyDrains_nil : readyDrains [] = 0 := rfl
@[simp]
theorem readyClears_nil : readyClears [] = 0 := rfl

@[simp]
theorem txWrites_wrTXD (v : Nat) (l : List Access) :
    txWrites (Access.wrTXD v :: l) = v :: txWrites l := rfl
@[simp]
theorem txWrites_wrEVENTS_READY (v : Nat) (l : List Access) :
    txWrites (Access.wrEVENTS_READY v :: l) = txWrites l := rfl
@[simp]
theorem txWrites_rdEVENTS_READY (v : Nat) (l : List Access) :
    txWrites (Access.rdEVENTS_READY v :: l) = txWrites l := rfl
@[simp]
theorem txWrites_rdRXD (v : Nat) (l : List Access) :
    txWrites (Access.rdRXD v :: l) = txWrites l := rfl

@[simp]
theorem rxReads_wrTXD (v : Nat) (l : List Access) :
    rxReads (Access.wrTXD v :: l) = rxReads l := by
  simp [rxReads]
@[simp]
theorem rxReads_wrEVENTS_READY (v : Nat) (l : List Access) :
    rxReads (Access.wrEVENTS_READY v :: l) = rxReads l := by
  simp [rxReads]
@[simp]
theorem rxReads_rdEVENTS_READY (v : Nat) (l : List Access) :
    rxReads (Access.rdEVENTS_READY v :: l) = rxReads l := by
  simp [rxReads]
@[simp]
theorem rxReads_rdRXD (v : Nat) (l : List Access) :
    rxReads (Access.rdRXD v :: l) = rxReads l + 1 := by
  simp [rxReads]

@[simp]
theorem readyClears_wrTXD (v : Nat) (l : List Access) :
    readyClears (Access.wrTXD v :: l) = readyClears l := by
  simp [readyClears]
@[simp]
theorem readyClears_wrEVENTS_READY (v : Nat) (l : List Access) :
    readyClears (Access.wrEVENTS_READY v :: l) = readyClears l + 1 := by
  simp [readyClears]
@[simp]
theorem readyClears_rdEVENTS_READY (v : Nat) (l : List Access) :
    readyClears (Access.rdEVENTS_READY v :: l) = readyClears l := by
  simp [readyClears]
@[simp]
theorem readyClears_rdRXD (v : Nat) (l : List Access) :
    readyClears (Access.rdRXD v :: l) = readyClears l := by
  simp [readyClears]

@[simp]
theorem readyDrains_wrTXD (v : Nat) (l : List Access) :
    readyDrains (Access.wrTXD v :: l) = readyDrains l := by
  simp [readyDrains]
@[simp]
theorem readyDrains_wrEVENTS_READY (v : Nat) (l : List Access) :
    readyDrains (Access.wrEVENTS_READY v :: l) = readyDrains l := by
  simp [readyDrains]
@[simp]
theorem readyDrains_rdEVENTS_READY (v : Nat) (l : List Access) :
    readyDrains (Access.rdEVENTS_READY v :: l) =
      readyDrains l + (if v = 0 then 0 else 1) := by
  by_cases h : v = 0 <;> simp [readyDrains, h]
@[simp]
theorem readyDrains_rdRXD (v : Nat) (l : List Access) :
    readyDrains (Access.rdRXD v :: l) = readyDrains l := by
  simp [readyDrains]

theorem take_succ_drop (l : List Nat) (i k : Nat) (h : i < l.length) :
    (l.drop i).take (k + 1) = l[i] :: (l.drop (i + 1)).take k := by
  rw [List.drop_eq_getElem_cons h, List.take_succ_cons]

@[simp]
theorem txWrites_pollTrace (k : Nat) : txWrites (pollTrace k) = [] := by
  induction k with
  | zero => simp [pollTrace]
  | succ k ih => simpa [pollTrace, List.replicate_succ] using ih

@[simp]
theorem rxReads_pollTrace (k : Nat) : rxReads (pollTrace k) = 0 := by
  induction k with
  | zero => simp [pollTrace]
  | succ k ih => simpa [pollTrace, List.replicate_succ] using ih

@[simp]
theorem readyClears_pollTrace (k : Nat) : readyClears (pollTrace k) = 0 := by
  induction k with
  | zero => simp [pollTrace]
  | succ k ih => simpa [pollTrace, List.replicate_succ] using ih

@[simp]
theorem readyDrains_pollTrace (k : Nat) : readyDrains (pollTrace k) = 1 := by
  induction k with
  | zero => simp [pollTrace]
  | succ k ih => simpa [pollTrace, List.replicate_succ] using ih

/-! ## The transmit loop -/

/-- The `for` loop of `bsp_spi_write_buf`, entered with `k` bytes left to
send and one byte `a` in flight, returns with one byte `c` in flight: the
bytes handed to the bus are `a` followed by `buf[i], ..., buf[size-1]`, and
the loop made `k` writes of `TXD`, `k` completed waits, `k` reads of `RXD`
and `k` clears. -/
theorem bsp_spi_write_buf_loop_spec (fuel : Nat) (buf : List Nat) (size : Nat)
    (hsz : size ≤ 255) (hlen : size ≤ buf.length) :
    ∀ (k n i : Nat) (s : NRF_SPI_Type) (a : Nat),
      i + k = size → k < n → s.EVENTS_READY = 0 → s.txq = [a] →
      s.clk < fuel → s.lat < fuel →
      ∃ (s' : NRF_SPI_Type) (c : Nat) (tr : List Access),
        bsp_spi_write_buf_loop fuel buf size n i s = some s' ∧
        s'.EVENTS_READY = 0 ∧ s'.txq = [c] ∧
        s'.mosi ++ [c] = s.mosi ++ a :: (buf.drop i).take k ∧
        s'.miso = s.miso.drop k ∧ s'.lat = s.lat ∧ s'.clk < fuel ∧
        s'.log = s.log ++ tr ∧ txWrites tr = (buf.drop i).take k ∧
        readyDrains tr = k ∧ rxReads tr = k ∧ readyClears tr = k := by
  intro k
  induction k with
  | zero =>
    intro n i s a hik hn hE hq hc hl
    obtain ⟨n, rfl⟩ : ∃ m, n = m + 1 := ⟨n - 1, by omega⟩
    refine ⟨s, a, [], ?_, hE, hq, by simp, by simp, rfl, hc, by simp, by simp,
      by simp, by simp, by simp⟩
    have : ¬ i < size := by omega
    simp [bsp_spi_write_buf_loop, this]
  | succ k ih =>
    intro n i s a hik hn hE hq hc hl
    obtain ⟨n, rfl⟩ : ∃ m, n = m + 1 := ⟨n - 1, by omega⟩
    have hi : i < size := by omega
    have hib : i < buf.length := by omega
    have hmod : (i + 1) % 256 = i + 1 := Nat.mod_eq_of_lt (by omega)
    have hw := waitReady_spec fuel (wrTXD buf[i] s) a [buf[i]]
      (by simpa [wrTXD] using hE) (by simp [wrTXD, hq]) (by simpa [wrTXD] using hc)
    obtain ⟨s', c, tr, hrun, hE', hq', hm', hmi', hl', hc', hlog', htx', hd', hr', hcl'⟩ :=
      ih n (i + 1)
        (wrEVENTS_READY 0 (rdRXD
          { wrTXD buf[i] s with
              EVENTS_READY := 1, RXD := (wrTXD buf[i] s).miso.headD 0,
              miso := (wrTXD buf[i] s).miso.tail, txq := [buf[i]],
              mosi := (wrTXD buf[i] s).mosi ++ [a], clk := (wrTXD buf[i] s).lat,
              log := (wrTXD buf[i] s).log ++ pollTrace (wrTXD buf[i] s).clk }).2)
        buf[i] (by omega) (by omega) (by simp [wrEVENTS_READY]) (by simp [wrEVENTS_READY, rdRXD])
        (by simpa [wrEVENTS_READY, rdRXD, wrTXD] using hl)
        (by simpa [wrEVENTS_READY, rdRXD, wrTXD] using hl)
    refine ⟨s', c, [Access.wrTXD buf[i]] ++ pollTrace s.clk ++
      [Access.rdRXD (s.miso.headD 0), Access.wrEVENTS_READY 0] ++ tr, ?_, hE', hq', ?_, ?_, ?_,
      hc', ?_, ?_, ?_, ?_, ?_⟩
    · rw [bsp_spi_write_buf_loop]
      simp only [hi, if_true, List.getElem?_eq_getElem hib, Option.bind_eq_bind,
        Option.some_bind, hw, hmod]
      exact hrun
    · rw [hm', take_succ_drop buf i k hib]
      simp [wrEVENTS_READY, rdRXD, wrTXD]
    · rw [hmi']
      simp [wrEVENTS_READY, rdRXD, wrTXD]
    · rw [hl']; simp [wrEVENTS_READY, rdRXD, wrTXD]
    · rw [hlog']; simp [wrEVENTS_READY, rdRXD, wrTXD]
    · rw [take_succ_drop buf i k hib]
      simp [htx']
    · simp [hd']; omega
    · simp [hr']
    · simp [hcl']

/-- Full account of `bsp_spi_write_buf` on an idle bus: it returns, the
bytes clocked out are `addr, buf[0], ..., buf[size-1]`, and the accesses made
are `size + 1` writes of `TXD` with these values, `size + 1` completed waits,
`size + 1` reads of `RXD` and `size + 2` clears of the ready event. -/
theorem bsp_spi_write_buf_spec (fuel addr : Nat) (buf : List Nat) (size : Nat)
    (s : NRF_SPI_Type) (h1 : 1 ≤ size) (hsz : size ≤ 255) (hlen : size ≤ buf.length)
    (hq : s.txq = []) (hc : s.clk < fuel) (hl : s.lat < fuel) (hf : size < fuel) :
    ∃ (s' : NRF_SPI_Type) (tr : List Access),
      bsp_spi_write_buf fuel addr buf size s = some s' ∧
      s'.EVENTS_READY = 0 ∧ s'.txq = [] ∧
      s'.mosi = s.mosi ++ (addr % 256) :: buf.take size ∧
      s'.miso = s.miso.drop (size + 1) ∧ s'.lat = s.lat ∧ s'.clk = s.lat ∧
      s'.log = s.log ++ tr ∧ txWrites tr = (addr % 256) :: buf.take size ∧
      readyDrains tr = size + 1 ∧ rxReads tr = size + 1 ∧
      readyClears tr = size + 2 := by
  obtain ⟨s₁, c, tr, hrun, hE₁, hq₁, hm₁, hmi₁, hl₁, hc₁, hlog₁, htx₁, hd₁, hr₁, hcl₁⟩ :=
    bsp_spi_write_buf_loop_spec fuel buf size hsz hlen size fuel 0
      (wrTXD (addr % 256) (wrEVENTS_READY 0 s)) (addr % 256) (by omega) hf
      (by simp [wrTXD, wrEVENTS_READY]) (by simp [wrTXD, wrEVENTS_READY, hq])
      (by simpa [wrTXD, wrEVENTS_READY] using hc) (by simpa [wrTXD, wrEVENTS_READY] using hl)
  have hw := waitReady_spec fuel s₁ c [] hE₁ hq₁ hc₁
  refine ⟨wrEVENTS_READY 0 (rdRXD
      { s₁ with EVENTS_READY := 1, RXD := s₁.miso.headD 0, miso := s₁.miso.tail, txq := [],
                mosi := s₁.mosi ++ [c], clk := s₁.lat, log := s₁.log ++ pollTrace s₁.clk }).2,
    [Access.wrEVENTS_READY 0, Access.wrTXD (addr % 256)] ++ tr ++ pollTrace s₁.clk ++
    [Access.rdRXD (s₁.miso.headD 0), Access.wrEVENTS_READY 0], ?_, ?_, ?_, ?_, ?_, ?_, ?_, ?_,
    ?_, ?_, ?_, ?_⟩
  · have h0 : size ≠ 0 := by omega
    simp only [bsp_spi_write_buf, h0, if_false, Option.bind_eq_bind, hrun, Option.some_bind, hw,
      Option.pure_def]
  · simp [wrEVENTS_READY, rdRXD]
  · simp [wrEVENTS_READY, rdRXD]
  · simpa [wrEVENTS_READY, rdRXD, wrTXD] using hm₁
  · simp [wrEVENTS_READY, rdRXD, wrTXD, hmi₁]
  · simpa [wrEVENTS_READY, rdRXD, wrTXD] using hl₁
  · simpa [wrEVENTS_READY, rdRXD, wrTXD] using hl₁
  · simp [wrEVENTS_READY, rdRXD, wrTXD, hlog₁]
  · simp [htx₁]
  · simp [hd₁]
  · simp [hr₁]
  · simp [hcl₁]

/-! ## The receive loop -/

theorem take_succ_set (l : List Nat) (i v : Nat) (h : i < l.length) :
    (l.set i v).take (i + 1) = l.take i ++ [v] := by
  rw [List.set_eq_take_append_cons_drop, if_pos h, List.take_append_eq_append_take]
  simp [List.length_take, Nat.min_eq_left (Nat.le_of_lt h)]

theorem set_set_succ (l : List Nat) (i v w : Nat) (h : i + 1 < l.length) :
    (l.set i v).set (i + 1) w = l.take i ++ [v, w] ++ l.drop (i + 2) := by
  have h1 : i + 1 < (l.set i v).length := by simpa using h
  rw [List.set_eq_take_append_cons_drop, if_pos h1, take_succ_set l i v (by omega),
    List.drop_set_of_lt v l (by omega)]
  simp

theorem store_natCast (buf : List Nat) (i v : Nat) (h : i < buf.length) :
    store buf (i : Int) v = some (buf.set i v) := by
  simp [store, h]

/-- One iteration of the `while` loop of `bsp_spi_read_buf`, unfolded. -/
theorem bsp_spi_read_buf_loop_succ (fuel size : Nat) (i : Int) (buf : List Nat)
    (s : NRF_SPI_Type) (a : Nat)
    (hE : s.EVENTS_READY = 0) (hq : s.txq = [a]) (hc : s.clk < fuel) (hl : s.lat < fuel) :
    bsp_spi_read_buf_loop fuel (size + 1) i buf s =
      (if 0 ≤ i then store buf i (s.miso.headD 0 % 256) else some buf).bind fun buf₁ =>
        if size = 0 then
          (store buf₁ (i + 1) ((afterDummy s a).miso.headD 0 % 256)).bind fun buf₂ =>
            some (buf₂, afterLast (afterDummy s a) 0)
        else bsp_spi_read_buf_loop fuel size (i + 1) buf₁ (afterDummy s a) := by
  have hw := waitReady_spec fuel (wrTXD 0 s) a [0]
    (by simpa [wrTXD] using hE) (by simp [wrTXD, hq]) (by simpa [wrTXD] using hc)
  have hw2 := waitReady_spec fuel (afterDummy s a) 0 [] rfl rfl (by simpa [afterDummy] using hl)
  rw [bsp_spi_read_buf_loop]
  simp only [Option.bind_eq_bind, hw, Option.some_bind]
  have e1 : (rdRXD (wrEVENTS_READY 0
      { wrTXD 0 s with
          EVENTS_READY := 1, RXD := (wrTXD 0 s).miso.headD 0, miso := (wrTXD 0 s).miso.tail,
          txq := [0], mosi := (wrTXD 0 s).mosi ++ [a], clk := (wrTXD 0 s).lat,
          log := (wrTXD 0 s).log ++ pollTrace (wrTXD 0 s).clk })) =
      (s.miso.headD 0, afterDummy s a) := by
    simp [rdRXD, wrEVENTS_READY, wrTXD, afterDummy]
  have e2 : (rdRXD (wrEVENTS_READY 0
      { afterDummy s a with
          EVENTS_READY := 1, RXD := (afterDummy s a).miso.headD 0,
          miso := (afterDummy s a).miso.tail,
          txq := [], mosi := (afterDummy s a).mosi ++ [0], clk := (afterDummy s a).lat,
          log := (afterDummy s a).log ++ pollTrace (afterDummy s a).clk })) =
      ((afterDummy s a).miso.headD 0, afterLast (afterDummy s a) 0) := by
    simp [rdRXD, wrEVENTS_READY, afterLast]
  rw [e1]
  by_cases hi : 0 ≤ i <;> by_cases hs : size = 0
  · subst hs
    simp only [hi, if_true, hw2, Option.some_bind, e2, bsp_spi_read_buf_loop]
  · simp only [hi, hs, if_true, if_false]
  · subst hs
    simp only [hi, if_true, if_false, hw2, Option.some_bind, e2, bsp_spi_read_buf_loop,
      Option.bind]
  · simp only [hi, hs, if_false, Option.bind]

/-- The `while` loop of `bsp_spi_read_buf` entered with a non-negative
index `i`, `m + 1` bytes left to clock and one byte `a` in flight: the `m + 2`
bytes `rs` delivered by the slave are stored at `buf[i], ..., buf[i+m+1]`, by
`m + 1` writes of a zero to `TXD`, `m + 2` completed waits, `m + 2` clears and
`m + 2` reads of `RXD`. -/
theorem bsp_spi_read_buf_loop_spec (fuel : Nat) :
    ∀ (m i : Nat) (buf : List Nat) (s : NRF_SPI_Type) (a : Nat) (rs rest : List Nat),
      s.EVENTS_READY = 0 → s.txq = [a] → s.clk < fuel → s.lat < fuel →
      s.miso = rs ++ rest → rs.length = m + 2 → i + m + 2 ≤ buf.length →
      ∃ (s' : NRF_SPI_Type) (tr : List Access),
        bsp_spi_read_buf_loop fuel (m + 1) (i : Int) buf s =
          some (buf.take i ++ rs.map (· % 256) ++ buf.drop (i + m + 2), s') ∧
        s'.EVENTS_READY = 0 ∧ s'.txq = [] ∧
        s'.mosi = s.mosi ++ a :: List.replicate (m + 1) 0 ∧
        s'.miso = rest ∧ s'.lat = s.lat ∧ s'.clk = s.lat ∧
        s'.log = s.log ++ tr ∧ txWrites tr = List.replicate (m + 1) 0 ∧
        readyDrains tr = m + 2 ∧ rxReads tr = m + 2 ∧ readyClears tr = m + 2 := by
  intro m
  induction m with
  | zero =>
    intro i buf s a rs rest hE hq hc hl hmiso hrs hlen
    obtain ⟨r₀, r₁, rfl⟩ : ∃ r₀ r₁, rs = [r₀, r₁] := by
      match rs, hrs with
      | [x, y], _ => exact ⟨x, y, rfl⟩
    have hi : (0 : Int) ≤ (i : Int) := Int.ofNat_nonneg i
    have hcast : (i : Int) + 1 = ((i + 1 : Nat) : Int) := by push_cast; ring
    refine ⟨afterLast (afterDummy s a) 0,
      [Access.wrTXD 0] ++ pollTrace s.clk ++
        [Access.wrEVENTS_READY 0, Access.rdRXD (s.miso.headD 0)] ++
        (pollTrace s.lat ++
          [Access.wrEVENTS_READY 0, Access.rdRXD ((afterDummy s a).miso.headD 0)]),
      ?_, rfl, rfl, ?_, ?_, rfl, rfl, ?_, ?_, ?_, ?_, ?_⟩
    · rw [bsp_spi_read_buf_loop_succ fuel 0 i buf s a hE hq hc hl]
      simp only [hi, if_true, store_natCast buf i _ (by omega), Option.some_bind, hcast]
      rw [store_natCast _ (i + 1) _ (by simp; omega)]
      simp only [Option.some_bind, afterDummy, hmiso]
      rw [set_set_succ buf i _ _ (by omega)]
      simp
    · simp [afterLast, afterDummy]
    · simp [afterLast, afterDummy, hmiso]
    · simp [afterLast, afterDummy]
    · simp
    · simp
    · simp
    · simp
  | succ m ih =>
    intro i buf s a rs rest hE hq hc hl hmiso hrs hlen
    obtain ⟨r₀, rs', rfl⟩ : ∃ r₀ rs', rs = r₀ :: rs' := by
      match rs, hrs with
      | x :: l, _ => exact ⟨x, l, rfl⟩
    have hrs' : rs'.length = m + 2 := by simpa using hrs
    have hi : (0 : Int) ≤ (i : Int) := Int.ofNat_nonneg i
    have hcast : (i : Int) + 1 = ((i + 1 : Nat) : Int) := by push_cast; ring
    obtain ⟨s', tr, hrun, hE', hq', hm', hmi', hl', hc', hlog', htx', hd', hr', hcl'⟩ :=
      ih (i + 1) (buf.set i (r₀ % 256)) (afterDummy s a) 0 rs' rest rfl rfl
        (by simpa [afterDummy] using hl) (by simpa [afterDummy] using hl)
        (by simp [afterDummy, hmiso]) hrs' (by simp; omega)
    refine ⟨s', [Access.wrTXD 0] ++ pollTrace s.clk ++
        [Access.wrEVENTS_READY 0, Access.rdRXD (s.miso.headD 0)] ++ tr,
      ?_, hE', hq', ?_, hmi', ?_, ?_, ?_, ?_, ?_, ?_, ?_⟩
    · rw [bsp_spi_read_buf_loop_succ fuel (m + 1) i buf s a hE hq hc hl]
      simp only [hi, if_true, store_natCast buf i _ (by omega), Option.some_bind, hcast]
      simp only [Nat.add_one_ne_zero, if_false, hmiso, List.cons_append, List.headD_cons]
      rw [hrun, take_succ_set buf i _ (by omega), List.drop_set_of_lt _ _ (by omega)]
      simp
      congr 2
      omega
    · rw [hm']; simp [afterDummy, List.replicate_succ]
    · rw [hl']; simp [afterDummy]
    · rw [hc']; simp [afterDummy]
    · rw [hlog']; simp [afterDummy]
    · simp [htx', List.replicate_succ]
    · simp [hd']; omega
    · simp [hr']
    · simp [hcl']

/-- Full account of `bsp_spi_read_buf` on an idle bus whose slave delivers
the bytes `r₀ :: rs` and then `rest`: it returns, `r₀` is dropped, the bytes
`rs` are stored at `buf[0], ..., buf[size-1]`, and the accesses made are
`size + 1` writes of `TXD` (`addr`, then zeros), `size + 1` completed waits,
`size + 1` reads of `RXD` and `size + 2` clears of the ready event. -/
theorem bsp_spi_read_buf_spec (fuel addr : Nat) (buf : List Nat) (size : Nat)
    (s : NRF_SPI_Type) (r₀ : Nat) (rs rest : List Nat)
    (h1 : 1 ≤ size) (hlen : size ≤ buf.length)
    (hq : s.txq = []) (hc : s.clk < fuel) (hl : s.lat < fuel)
    (hmiso : s.miso = r₀ :: rs ++ rest) (hrs : rs.length = size) :
    ∃ (s' : NRF_SPI_Type) (tr : List Access),
      bsp_spi_read_buf fuel addr buf size s =
        some (rs.map (· % 256) ++ buf.drop size, s') ∧
      s'.EVENTS_READY = 0 ∧ s'.txq = [] ∧
      s'.mosi = s.mosi ++ (addr % 256) :: List.replicate size 0 ∧
      s'.miso = rest ∧ s'.lat = s.lat ∧ s'.clk = s.lat ∧
      s'.log = s.log ++ tr ∧ txWrites tr = (addr % 256) :: List.replicate size 0 ∧
      readyDrains tr = size + 1 ∧ rxReads tr = size + 1 ∧
      readyClears tr = size + 2 := by
  have h0 : size ≠ 0 := by omega
  obtain ⟨n, rfl⟩ : ∃ n, size = n + 1 := ⟨size - 1, by omega⟩
  have hE₀ : (wrTXD (addr % 256) (wrEVENTS_READY 0 s)).EVENTS_READY = 0 := rfl
  have hq₀ : (wrTXD (addr % 256) (wrEVENTS_READY 0 s)).txq = [addr % 256] := by
    simp [wrTXD, wrEVENTS_READY, hq]
  have hstep := bsp_spi_read_buf_loop_succ fuel n (-1) buf
    (wrTXD (addr % 256) (wrEVENTS_READY 0 s)) (addr % 256) hE₀ hq₀
    (by simpa [wrTXD, wrEVENTS_READY] using hc) (by simpa [wrTXD, wrEVENTS_READY] using hl)
  have hneg : ¬ (0 : Int) ≤ -1 := by decide
  simp only [hneg, if_false, Option.some_bind] at hstep
  have hcast : (-1 : Int) + 1 = ((0 : Nat) : Int) := by decide
  rw [hcast] at hstep
  cases n with
  | zero =>
    obtain ⟨r₁, rfl⟩ : ∃ r₁, rs = [r₁] := by
      match rs, hrs with
      | [x], _ => exact ⟨x, rfl⟩
    refine ⟨afterLast (afterDummy (wrTXD (addr % 256) (wrEVENTS_READY 0 s)) (addr % 256)) 0,
      [Access.wrEVENTS_READY 0, Access.wrTXD (addr % 256)] ++
        ([Access.wrTXD 0] ++ pollTrace s.clk ++ [Access.wrEVENTS_READY 0, Access.rdRXD r₀]) ++
        (pollTrace s.lat ++ [Access.wrEVENTS_READY 0, Access.rdRXD r₁]),
      ?_, rfl, rfl, ?_, ?_, rfl, rfl, ?_, ?_, ?_, ?_, ?_⟩
    · simp only [bsp_spi_read_buf, h0, if_false]
      rw [hstep]
      simp only [if_true, store_natCast buf 0 _ (by omega), Option.some_bind]
      cases buf with
      | nil => simp at hlen
      | cons b bs => simp [afterDummy, wrTXD, wrEVENTS_READY, hmiso]
    · simp [afterLast, afterDummy, wrTXD, wrEVENTS_READY]
    · simp [afterLast, afterDummy, wrTXD, wrEVENTS_READY, hmiso]
    · simp [afterLast, afterDummy, wrTXD, wrEVENTS_READY, hmiso]
    · simp
    · simp
    · simp
    · simp
  | succ m =>
    obtain ⟨s', tr, hrun, hE', hq', hm', hmi', hl', hc', hlog', htx', hd', hr', hcl'⟩ :=
      bsp_spi_read_buf_loop_spec fuel m 0 buf
        (afterDummy (wrTXD (addr % 256) (wrEVENTS_READY 0 s)) (addr % 256)) 0 rs rest rfl rfl
        (by simpa [afterDummy, wrTXD, wrEVENTS_READY] using hl)
        (by simpa [afterDummy, wrTXD, wrEVENTS_READY] using hl)
        (by simp [afterDummy, wrTXD, wrEVENTS_READY, hmiso]) hrs (by omega)
    refine ⟨s', [Access.wrEVENTS_READY 0, Access.wrTXD (addr % 256)] ++
        ([Access.wrTXD 0] ++ pollTrace s.clk ++ [Access.wrEVENTS_READY 0, Access.rdRXD r₀]) ++ tr,
      ?_, hE', hq', ?_, hmi', ?_, ?_, ?_, ?_, ?_, ?_, ?_⟩
    · simp only [bsp_spi_read_buf, h0, if_false]
      rw [hstep]
      simp only [Nat.add_one_ne_zero, if_false]
      rw [hrun]
      simp
    · rw [hm']; simp [afterDummy, wrTXD, wrEVENTS_READY, List.replicate_succ]
    · rw [hl']; simp [afterDummy, wrTXD, wrEVENTS_READY]
    · rw [hc']; simp [afterDummy, wrTXD, wrEVENTS_READY]
    · rw [hlog']; simp [afterDummy, wrTXD, wrEVENTS_READY, hmiso]
    · simp [htx', List.replicate_succ]
    · simp [hd']; omega
    · simp [hr']
    · simp [hcl']

/-! ## The bring-up is the fail-fast run of the enabled steps -/

theorem runSteps_gate (env : Call → Int) (p : Prop) [Decidable p] (c : Call)
    (cs : List Call) :
    runSteps env ((if p then [c] else []) ++ cs) =
      if p then
        (if env c = 0 then ((runSteps env cs).1, c :: (runSteps env cs).2) else (none, [c]))
      else runSteps env cs := by
  by_cases h : p <;> simp [runSteps, h]

theorem sim_gate (env : Call → Int) (p : Prop) [i₁ : Decidable p] [i₂ : Decidable p]
    (c : Call) (k : PUnit → BootM Unit) (l : List Call) (h : Sim env (k PUnit.unit) l) :
    Sim env
      (@ite _ p i₁ (call env c >>= fun rc => assert (rc == 0) >>= fun y => k y)
        (pure PUnit.unit >>= fun y => k y))
      ((@ite _ p i₂ [c] []) ++ l) := by
  intro t
  have e : i₁ = i₂ := Subsingleton.elim _ _
  subst e
  rw [runSteps_gate]
  by_cases hp : p
  · by_cases hc : env c = 0
    · simp [hp, hc, bind, pure, call, assert, h (t ++ [c])]
    · simp [hp, hc, bind, pure, call, assert]
  · simp [hp, bind, pure, h t]

theorem sim_gate_last (env : Call → Int) (p : Prop) [i₁ : Decidable p] [i₂ : Decidable p]
    (c : Call) :
    Sim env
      (@ite _ p i₁ (call env c >>= fun rc => assert (rc == 0)) (pure PUnit.unit))
      ((@ite _ p i₂ [c] []) ++ []) := by
  intro t
  have e : i₁ = i₂ := Subsingleton.elim _ _
  subst e
  rw [runSteps_gate]
  by_cases hp : p
  · by_cases hc : env c = 0
    · simp [hp, hc, bind, pure, call, assert, runSteps]
    · simp [hp, hc, bind, pure, call, assert]
  · simp [hp, pure, runSteps]

theorem sim_start (env : Call → Int) (c : Call) (k : PUnit → BootM Unit) (l : List Call)
    (h : Sim env (k PUnit.unit) l) (t : List Call) :
    (callVoid c >>= k) t = ((runSteps env l).1, t ++ c :: (runSteps env l).2) := by
  simp [bind, callVoid, h (t ++ [c])]

theorem filter_gate (f : Periph × Call → Bool) (pc : Periph × Call)
    (l : List (Periph × Call)) :
    ((pc :: l).filter f).map Prod.snd =
      (if f pc = true then [pc.2] else []) ++ (l.filter f).map Prod.snd := by
  by_cases h : f pc = true <;> simp [List.filter_cons, h]

/-- The source routine makes `hal_system_clock_start` and then the fail-fast
run of the enabled steps of the fixed order. -/
theorem hal_bsp_init_eq (cfg : Config) (env : Call → Int) (t : List Call) :
    hal_bsp_init cfg env t =
      ((runSteps env (enabledSteps cfg)).1,
        t ++ Call.hal_system_clock_start :: (runSteps env (enabledSteps cfg)).2) := by
  unfold hal_bsp_init
  refine sim_start env _ _ _ ?_ t
  unfold enabledSteps bootOrder
  simp only [filter_gate, List.filter_nil, List.map_nil, Config.enabled, decide_eq_true_eq]
  refine sim_gate _ _ _ _ _ ?_
  refine sim_gate _ _ _ _ _ ?_
  refine sim_gate _ _ _ _ _ ?_
  refine sim_gate _ _ _ _ _ ?_
  refine sim_gate _ _ _ _ _ ?_
  refine sim_gate _ _ _ _ _ ?_
  refine sim_gate _ _ _ _ _ ?_
  refine sim_gate _ _ _ _ _ ?_
  refine sim_gate _ _ _ _ _ ?_
  refine sim_gate _ _ _ _ _ ?_
  refine sim_gate _ _ _ _ _ ?_
  refine sim_gate _ _ _ _ _ ?_
  refine sim_gate _ _ _ _ _ ?_
  refine sim_gate _ _ _ _ _ ?_
  refine sim_gate _ _ _ _ _ ?_
  refine sim_gate _ _ _ _ _ ?_
  refine sim_gate _ _ _ _ _ ?_
  exact sim_gate_last _ _ _

theorem bootCalls_eq (cfg : Config) (env : Call → Int) :
    bootCalls cfg env =
      Call.hal_system_clock_start :: (runSteps env (enabledSteps cfg)).2 := by
  simp [bootCalls, hal_bsp_init_eq]

theorem bootOutcome_eq (cfg : Config) (env : Call → Int) :
    bootOutcome cfg env = (runSteps env (enabledSteps cfg)).1 := by
  simp [bootOutcome, hal_bsp_init_eq]

theorem runSteps_all_ok (env : Call → Int) (l : List Call) (h : ∀ c ∈ l, env c = 0) :
    runSteps env l = (some (), l) := by
  induction l with
  | nil => rfl
  | cons c cs ih =>
    have hc : env c = 0 := h c (List.mem_cons_self _ _)
    have hcs := ih fun x hx => h x (List.mem_cons_of_mem _ hx)
    simp [runSteps, hc, hcs]

theorem runSteps_first_failure (env : Call → Int) (pre : List Call) (c : Call)
    (post : List Call) (hpre : ∀ x ∈ pre, env x = 0) (hc : env c ≠ 0) :
    runSteps env (pre ++ c :: post) = (none, pre ++ [c]) := by
  induction pre with
  | nil => simp [runSteps, hc]
  | cons a as ih =>
    have ha : env a = 0 := hpre a (List.mem_cons_self _ _)
    have has := ih fun x hx => hpre x (List.mem_cons_of_mem _ hx)
    simp [runSteps, ha, has]

theorem runSteps_subset (env : Call → Int) (l : List Call) :
    ∀ c ∈ (runSteps env l).2, c ∈ l := by
  induction l with
  | nil => simp [runSteps]
  | cons a as ih =>
    intro c hc
    by_cases ha : env a = 0
    · simp only [runSteps, ha, if_true, List.mem_cons] at hc
      rcases hc with rfl | hc
      · exact List.mem_cons_self _ _
      · exact List.mem_cons_of_mem _ (ih c hc)
    · simp only [runSteps, ha, if_false, List.mem_singleton] at hc
      subst hc
      exact List.mem_cons_self _ _

theorem runSteps_filter (env : Call → Int) (keep : Call → Bool)
    (h : ∀ c, keep c = false → env c = 0) (l : List Call) :
    runSteps env (l.filter keep) =
      ((runSteps env l).1, (runSteps env l).2.filter keep) := by
  induction l with
  | nil => simp [runSteps]
  | cons a as ih =>
    cases hk : keep a with
    | true =>
      by_cases ha : env a = 0
      · simp [List.filter_cons, hk, runSteps, ha, ih]
      · simp [List.filter_cons, hk, runSteps, ha]
    | false =>
      have ha : env a = 0 := h a hk
      simp [List.filter_cons, hk, runSteps, ha, ih]

theorem bootOrder_periph (freq : Nat) :
    ∀ pc ∈ bootOrder freq, pc.2.periph = some pc.1 := by
  simp [bootOrder, Call.periph]

theorem bootOrder_nodup (freq : Nat) : ((bootOrder freq).map Prod.snd).Nodup := by
  simp [bootOrder]

theorem enabledSteps_sublist (cfg : Config) :
    List.Sublist (enabledSteps cfg) ((bootOrder cfg.OS_CPUTIME_FREQ).map Prod.snd) :=
  List.Sublist.map _ (List.filter_sublist _)

theorem enabledSteps_periph (cfg : Config) (c : Call) (hc : c ∈ enabledSteps cfg) :
    ∃ q, c.periph = some q ∧ cfg.enabled q = true := by
  simp only [enabledSteps, List.mem_map, List.mem_filter] at hc
  obtain ⟨pc, ⟨hmem, hen⟩, rfl⟩ := hc
  exact ⟨pc.1, bootOrder_periph _ pc hmem, hen⟩

theorem runSteps_ok (env : Call → Int) (l : List Call)
    (h : (runSteps env l).1 = some ()) : (runSteps env l).2 = l := by
  induction l with
  | nil => rfl
  | cons a as ih =>
    by_cases ha : env a = 0
    · simp only [runSteps, ha, if_true] at h ⊢
      rw [ih h]
    · simp [runSteps, ha] at h

theorem runSteps_sublist (env : Call → Int) (l : List Call) :
    List.Sublist (runSteps env l).2 l := by
  induction l with
  | nil => simp [runSteps]
  | cons a as ih =>
    by_cases ha : env a = 0
    · simp only [runSteps, ha, if_true]
      exact List.Sublist.cons₂ a ih
    · simp only [runSteps, ha, if_false]
      exact List.Sublist.cons₂ a (List.nil_sublist _)

theorem bootOrder_pairwise (freq : Nat) :
    List.Pairwise (fun a b => Call.mayPrecede a b = true)
      (Call.hal_system_clock_start :: (bootOrder freq).map Prod.snd) := by
  simp [bootOrder, Call.mayPrecede, Call.isTimerInit, Call.isCputimeInit, Call.isBusInit,
    Call.isUartCreate]

theorem bootCalls_pairwise (cfg : Config) (env : Call → Int) :
    List.Pairwise (fun a b => Call.mayPrecede a b = true) (bootCalls cfg env) := by
  rw [bootCalls_eq]
  refine List.Pairwise.sublist ?_ (bootOrder_pairwise cfg.OS_CPUTIME_FREQ)
  exact List.Sublist.cons₂ _ ((runSteps_sublist env _).trans (enabledSteps_sublist cfg))

/-! ## Claims on `hal_bsp_get_nvic_priority` and `hal_bsp_init` -/

/-- C5: for every requested priority `pri`, `hal_bsp_get_nvic_priority` maps
the radio interrupt `RADIO_IRQn` to priority 0 whatever `pri` is, and maps
every other interrupt number to `pri` unchanged. -/
theorem hal_bsp_get_nvic_priority_policy (RADIO_IRQn : Int) (pri : Nat) :
    hal_bsp_get_nvic_priority RADIO_IRQn RADIO_IRQn pri = 0 ∧
    ∀ irq_num : Int, irq_num ≠ RADIO_IRQn →
      hal_bsp_get_nvic_priority RADIO_IRQn irq_num pri = pri := by
  constructor
  · simp [hal_bsp_get_nvic_priority]
  · intro irq_num h
    simp [hal_bsp_get_nvic_priority, h]

theorem hal_bsp_get_nvic_priority_policy_witness :
    hal_bsp_get_nvic_priority 1 1 5 = 0 ∧ hal_bsp_get_nvic_priority 1 2 5 = 5 :=
  ⟨(hal_bsp_get_nvic_priority_policy 1 5).1,
    (hal_bsp_get_nvic_priority_policy 1 5).2 2 (by decide)⟩

/-- C6: fail-fast. For every configuration and every assignment `env` of
result codes to the collaborator calls: if every enabled step returns 0,
`hal_bsp_init` returns normally having made `hal_system_clock_start` and then
every enabled step in the fixed order; if `c` is the first enabled step with
a non-zero result, the routine is halted there and the calls made are the
enabled steps up to and including `c` and no later one. No step occurs twice
in the enabled steps, so each is made at most once. -/
theorem hal_bsp_init_fail_fast (cfg : Config) (env : Call → Int) :
    ((∀ c ∈ enabledSteps cfg, env c = 0) →
      hal_bsp_init cfg env [] =
        (some (), Call.hal_system_clock_start :: enabledSteps cfg)) ∧
    (∀ (pre : List Call) (c : Call) (post : List Call),
      enabledSteps cfg = pre ++ c :: post → (∀ x ∈ pre, env x = 0) → env c ≠ 0 →
      hal_bsp_init cfg env [] =
        (none, Call.hal_system_clock_start :: (pre ++ [c]))) ∧
    (enabledSteps cfg).Nodup := by
  refine ⟨?_, ?_, ?_⟩
  · intro h
    rw [hal_bsp_init_eq, runSteps_all_ok env _ h]
    rfl
  · intro pre c post hsplit hpre hc
    rw [hal_bsp_init_eq, hsplit, runSteps_first_failure env pre c post hpre hc]
    rfl
  · exact List.Nodup.sublist (enabledSteps_sublist cfg) (bootOrder_nodup _)

theorem hal_bsp_init_fail_fast_witness :
    hal_bsp_init allButPwm3 (fun _ => 0) [] =
      (some (), Call.hal_system_clock_start :: enabledSteps allButPwm3) ∧
    hal_bsp_init allButPwm3 failTimer2 [] =
      (none, [Call.hal_system_clock_start, Call.hal_timer_init 0, Call.hal_timer_init 1,
        Call.hal_timer_init 2]) :=
  ⟨(hal_bsp_init_fail_fast allButPwm3 (fun _ => 0)).1 (fun _ _ => rfl),
    (hal_bsp_init_fail_fast allButPwm3 failTimer2).2.1
      [Call.hal_timer_init 0, Call.hal_timer_init 1] (Call.hal_timer_init 2)
      ((enabledSteps allButPwm3).drop 3) (by decide) (by decide) (by decide)⟩

/-- C7: whenever `hal_bsp_init` returns normally (all steps succeeded), the
calls it made are `hal_system_clock_start` followed by all enabled steps, and
in that sequence every timer initialisation comes before `os_cputime_init`,
`os_cputime_init` comes before every I2C and SPI initialisation and every
UART registration, and nothing but UART registrations comes after a UART
registration (they are the last steps). -/
theorem hal_bsp_init_order (cfg : Config) (env : Call → Int)
    (hok : bootOutcome cfg env = some ()) :
    bootCalls cfg env = Call.hal_system_clock_start :: enabledSteps cfg ∧
    ∀ (i j : Nat) (hi : i < (bootCalls cfg env).length)
      (hj : j < (bootCalls cfg env).length),
      (((bootCalls cfg env)[i]).isTimerInit = true →
        ((bootCalls cfg env)[j]).isCputimeInit = true → i < j) ∧
      (((bootCalls cfg env)[i]).isCputimeInit = true →
        (((bootCalls cfg env)[j]).isBusInit = true ∨
          ((bootCalls cfg env)[j]).isUartCreate = true) → i < j) ∧
      (((bootCalls cfg env)[i]).isUartCreate = true →
        ((bootCalls cfg env)[j]).isUartCreate = false → j < i) := by
  constructor
  · rw [bootOutcome_eq] at hok
    rw [bootCalls_eq, runSteps_ok env _ hok]
  · intro i j hi hj
    have hp := List.pairwise_iff_getElem.mp (bootCalls_pairwise cfg env)
    refine ⟨?_, ?_, ?_⟩
    · intro h₁ h₂
      by_contra hlt
      rcases Nat.lt_or_ge j i with h | h
      · have := hp j i hj hi h
        simp [Call.mayPrecede, h₁, h₂] at this
      · have e : i = j := by omega
        subst e
        cases hc : (bootCalls cfg env)[i] <;> simp [hc, Call.isTimerInit, Call.isCputimeInit] at h₁ h₂
    · intro h₁ h₂
      by_contra hlt
      rcases Nat.lt_or_ge j i with h | h
      · have := hp j i hj hi h
        rcases h₂ with h₂ | h₂ <;> simp [Call.mayPrecede, h₁, h₂] at this
      · have e : i = j := by omega
        subst e
        cases hc : (bootCalls cfg env)[i] <;>
          simp [hc, Call.isBusInit, Call.isUartCreate, Call.isCputimeInit] at h₁ h₂
    · intro h₁ h₂
      by_contra hlt
      rcases Nat.lt_or_ge i j with h | h
      · have := hp i j hi hj h
        simp [Call.mayPrecede, h₁, h₂] at this
      · have e : i = j := by omega
        subst e
        rw [h₁] at h₂
        exact Bool.noConfusion h₂

theorem hal_bsp_init_order_witness :
    bootCalls allButPwm3 (fun _ => 0) =
      Call.hal_system_clock_start :: enabledSteps allButPwm3 ∧
    (((bootCalls allButPwm3 (fun _ => 0))[6]?).map Call.isTimerInit = some true ∧
      ((bootCalls allButPwm3 (fun _ => 0))[12]?).map Call.isCputimeInit = some true) :=
  ⟨(hal_bsp_init_order allButPwm3 (fun _ => 0) (by decide)).1, by decide⟩

/-- C9: for every configuration, every assignment of result codes and every
peripheral `p` whose presence flag is disabled, `hal_bsp_init` makes no call
for `p`; and the calls it makes, and its outcome, are those of any
configuration `cfg'` that differs from it at most in the flag of `p` (so
possibly has `p` enabled, its call succeeding), with the calls for `p`
removed. -/
theorem hal_bsp_init_disabled_frame (cfg : Config) (env : Call → Int) (p : Periph)
    (hoff : cfg.enabled p = false) :
    (∀ c ∈ bootCalls cfg env, c.periph ≠ some p) ∧
    ∀ cfg' : Config,
      (∀ q, q ≠ p → cfg'.enabled q = cfg.enabled q) →
      cfg'.OS_CPUTIME_FREQ = cfg.OS_CPUTIME_FREQ →
      (∀ c : Call, c.periph = some p → env c = 0) →
      bootOutcome cfg env = bootOutcome cfg' env ∧
      bootCalls cfg env =
        (bootCalls cfg' env).filter fun c => decide (c.periph ≠ some p) := by
  constructor
  · intro c hc
    rw [bootCalls_eq, List.mem_cons] at hc
    rcases hc with rfl | hc
    · simp [Call.periph]
    · obtain ⟨q, hq, hen⟩ := enabledSteps_periph cfg c (runSteps_subset env _ c hc)
      intro hp
      rw [hq] at hp
      cases hp
      rw [hoff] at hen
      exact Bool.noConfusion hen
  · intro cfg' hsame hfreq hzero
    have hsteps : enabledSteps cfg =
        (enabledSteps cfg').filter fun c => decide (c.periph ≠ some p) := by
      simp only [enabledSteps, hfreq, List.filter_map, List.filter_filter]
      congr 1
      apply List.filter_congr
      intro pc hpc
      have hper := bootOrder_periph _ pc hpc
      by_cases hq : pc.1 = p
      · simp [Function.comp, hper, hq, hoff]
      · simp [Function.comp, hper, hq, hsame pc.1 hq]
    have hrun := runSteps_filter env (fun c => decide (c.periph ≠ some p))
      (fun c hc => hzero c (by simpa using hc)) (enabledSteps cfg')
    rw [← hsteps] at hrun
    constructor
    · rw [bootOutcome_eq, bootOutcome_eq, hrun]
    · rw [bootCalls_eq, bootCalls_eq, hrun]
      simp [List.filter_cons, Call.periph]

theorem hal_bsp_init_disabled_frame_witness :
    (∀ c ∈ bootCalls allButPwm3Uart1 (fun _ => 0), c.periph ≠ some Periph.UART_1) ∧
    bootCalls allButPwm3Uart1 (fun _ => 0) =
      (bootCalls allButPwm3 (fun _ => 0)).filter
        fun c => decide (c.periph ≠ some Periph.UART_1) :=
  ⟨(hal_bsp_init_disabled_frame allButPwm3Uart1 (fun _ => 0) Periph.UART_1 (by decide)).1,
    ((hal_bsp_init_disabled_frame allButPwm3Uart1 (fun _ => 0) Periph.UART_1
      (by decide)).2 allButPwm3
      (by intro q hq; cases q <;> first | rfl | exact absurd rfl hq)
      rfl (fun _ _ => rfl)).2⟩

/-! ## Claims on the polled SPI transfers -/

theorem map_mod_of_lt (l : List Nat) (h : ∀ b ∈ l, b < 256) : l.map (· % 256) = l := by
  induction l with
  | nil => rfl
  | cons a as ih =>
    have ha : a < 256 := h a (List.mem_cons_self _ _)
    have has := ih fun x hx => h x (List.mem_cons_of_mem _ hx)
    simp [Nat.mod_eq_of_lt ha, has]

/-- C1: for every address byte, buffer and size with `1 ≤ size ≤ 255` (the
buffer holding at least `size` bytes), `bsp_spi_write_buf` on an idle bus that
raises the ready event after each transmitted byte returns, given enough
polls; the accesses `tr` it made write to `TXD` exactly
`addr, buf[0], ..., buf[size-1]` in this order (`size + 1` writes), and
contain exactly `size + 1` completed waits for the ready event, each with its
read of `RXD` and its clear of the event (the `size + 2` clears are these and
the one made before the address byte is written); the loop counter does not
wrap, also for `size = 255`. -/
theorem bsp_spi_write_buf_transmits (fuel addr : Nat) (buf : List Nat) (size : Nat)
    (spi : NRF_SPI_Type) (haddr : addr < 256) (h1 : 1 ≤ size) (hsz : size ≤ 255)
    (hlen : size ≤ buf.length) (hidle : spi.txq = [])
    (hc : spi.clk < fuel) (hl : spi.lat < fuel) (hf : size < fuel) :
    ∃ (spi' : NRF_SPI_Type) (tr : List Access),
      bsp_spi_write_buf fuel addr buf size spi = some spi' ∧
      spi'.log = spi.log ++ tr ∧
      txWrites tr = addr :: buf.take size ∧
      (txWrites tr).length = size + 1 ∧
      readyDrains tr = size + 1 ∧ rxReads tr = size + 1 ∧ readyClears tr = size + 2 ∧
      spi'.mosi = spi.mosi ++ addr :: buf.take size ∧ spi'.txq = [] := by
  obtain ⟨s', tr, hrun, _, hq', hm', _, _, _, hlog', htx', hd', hr', hcl'⟩ :=
    bsp_spi_write_buf_spec fuel addr buf size spi h1 hsz hlen hidle hc hl hf
  rw [Nat.mod_eq_of_lt haddr] at htx' hm'
  refine ⟨s', tr, hrun, hlog', htx', ?_, hd', hr', hcl', hm', hq'⟩
  rw [htx']
  simp [List.length_take, Nat.min_eq_left hlen]

theorem bsp_spi_write_buf_transmits_witness :
    (∃ (spi' : NRF_SPI_Type) (tr : List Access),
      bsp_spi_write_buf 3 0x10 [0xAA, 0xBB] 2 (idleBus 0 []) = some spi' ∧
      spi'.log = (idleBus 0 []).log ++ tr ∧
      txWrites tr = 0x10 :: [0xAA, 0xBB].take 2 ∧
      (txWrites tr).length = 2 + 1 ∧
      readyDrains tr = 2 + 1 ∧ rxReads tr = 2 + 1 ∧ readyClears tr = 2 + 2 ∧
      spi'.mosi = (idleBus 0 []).mosi ++ 0x10 :: [0xAA, 0xBB].take 2 ∧ spi'.txq = []) ∧
    (∃ (spi' : NRF_SPI_Type) (tr : List Access),
      bsp_spi_write_buf 256 0x10 (List.replicate 255 0x55) 255 (idleBus 1 []) = some spi' ∧
      spi'.log = (idleBus 1 []).log ++ tr ∧
      txWrites tr = 0x10 :: (List.replicate 255 0x55).take 255 ∧
      (txWrites tr).length = 255 + 1 ∧
      readyDrains tr = 255 + 1 ∧ rxReads tr = 255 + 1 ∧ readyClears tr = 255 + 2 ∧
      spi'.mosi = (idleBus 1 []).mosi ++ 0x10 :: (List.replicate 255 0x55).take 255 ∧
      spi'.txq = []) :=
  ⟨bsp_spi_write_buf_transmits 3 0x10 [0xAA, 0xBB] 2 (idleBus 0 []) (by decide) (by decide)
      (by decide) (by decide) rfl (by decide) (by decide) (by decide),
    bsp_spi_write_buf_transmits 256 0x10 (List.replicate 255 0x55) 255 (idleBus 1 [])
      (by decide) (by decide) (by decide) (by simp only [List.length_replicate, le_refl]) rfl
      (by decide) (by decide) (by decide)⟩

/-- C2: for every address byte and size `≥ 1`, `bsp_spi_read_buf` on an idle
bus whose slave delivers the bytes `rx = r₀, r₁, ..., r_size` (one per ready
event) returns, given enough polls, having read `RXD` exactly `size + 1`
times; `r₀` is dropped and `buf[k] = r_(k+1)` for every `k < size`, the last
byte `r_size` being stored at `buf[size-1]`; the rest of the buffer is
unchanged. -/
theorem bsp_spi_read_buf_receives (fuel addr : Nat) (buf : List Nat) (size : Nat)
    (spi : NRF_SPI_Type) (rx rest : List Nat)
    (h1 : 1 ≤ size) (hlen : size ≤ buf.length) (hidle : spi.txq = [])
    (hc : spi.clk < fuel) (hl : spi.lat < fuel)
    (hmiso : spi.miso = rx ++ rest) (hrx : rx.length = size + 1)
    (hbytes : ∀ r ∈ rx, r < 256) :
    ∃ (buf' : List Nat) (spi' : NRF_SPI_Type) (tr : List Access),
      bsp_spi_read_buf fuel addr buf size spi = some (buf', spi') ∧
      spi'.log = spi.log ++ tr ∧ rxReads tr = size + 1 ∧
      buf' = rx.tail ++ buf.drop size ∧
      (∀ k, k < size → buf'[k]? = rx[k + 1]?) ∧
      buf'[size - 1]? = rx[size]? ∧ rx[size]? ≠ none := by
  obtain ⟨r₀, rs, rfl⟩ : ∃ r₀ rs, rx = r₀ :: rs := by
    match rx, hrx with
    | x :: l, _ => exact ⟨x, l, rfl⟩
  have hrs : rs.length = size := by simpa using hrx
  obtain ⟨s', tr, hrun, _, _, _, _, _, _, hlog', _, _, hr', _⟩ :=
    bsp_spi_read_buf_spec fuel addr buf size spi r₀ rs rest h1 hlen hidle hc hl hmiso hrs
  rw [map_mod_of_lt rs fun r hr => hbytes r (List.mem_cons_of_mem _ hr)] at hrun
  have hidx : ∀ k, k < size → (rs ++ buf.drop size)[k]? = (r₀ :: rs)[k + 1]? := by
    intro k hk
    rw [List.getElem?_append_left (by omega), List.getElem?_cons_succ]
  refine ⟨rs ++ buf.drop size, s', tr, hrun, hlog', hr', rfl, hidx, ?_, ?_⟩
  · have := hidx (size - 1) (by omega)
    rwa [Nat.sub_add_cancel h1] at this
  · rw [List.getElem?_eq_getElem (by simp; omega)]
    simp

theorem bsp_spi_read_buf_receives_witness :
    ∃ (buf' : List Nat) (spi' : NRF_SPI_Type) (tr : List Access),
      bsp_spi_read_buf 2 0x20 [0, 0, 0] 3 (idleBus 0 [0x99, 0x01, 0x02, 0x03]) =
        some (buf', spi') ∧
      spi'.log = (idleBus 0 [0x99, 0x01, 0x02, 0x03]).log ++ tr ∧ rxReads tr = 3 + 1 ∧
      buf' = [0x99, 0x01, 0x02, 0x03].tail ++ [0, 0, 0].drop 3 ∧
      (∀ k, k < 3 → buf'[k]? = [0x99, 0x01, 0x02, 0x03][k + 1]?) ∧
      buf'[3 - 1]? = [0x99, 0x01, 0x02, 0x03][3]? ∧ [0x99, 0x01, 0x02, 0x03][3]? ≠ none :=
  bsp_spi_read_buf_receives 2 0x20 [0, 0, 0] 3 (idleBus 0 [0x99, 0x01, 0x02, 0x03])
    [0x99, 0x01, 0x02, 0x03] [] (by decide) (by decide) rfl (by decide) (by decide) rfl rfl
    (by decide)

/-- C3: round trip. For every address byte `addr`, every `N ≤ 255` (so for
`N = 0, 1, 8, 255`) and every buffer `buf` of `N` bytes, `bsp_spi_write_buf`
followed by `bsp_spi_read_buf` into a buffer `out` of `N` bytes, against a
loopback slave that recorded the data bytes sent after the address byte and
answers the address byte of the read with an arbitrary byte `x` and each
dummy byte with the next recorded byte, both return and leave `out = buf`. -/
theorem bsp_spi_write_read_roundtrip (fuel addr : Nat) (buf out : List Nat) (N x : Nat)
    (spi : NRF_SPI_Type) (hN : N ≤ 255) (hbuf : buf.length = N) (hout : out.length = N)
    (hbytes : ∀ b ∈ buf, b < 256) (hidle : spi.txq = []) (hrec : spi.mosi = [])
    (hc : spi.clk < fuel) (hl : spi.lat < fuel) (hf : N < fuel) :
    ∃ (spi₁ spi₂ : NRF_SPI_Type),
      bsp_spi_write_buf fuel addr buf N spi = some spi₁ ∧
      bsp_spi_read_buf fuel addr out N (loopback x spi₁) = some (buf, spi₂) := by
  rcases Nat.eq_zero_or_pos N with h0 | hpos
  · subst h0
    have hb : buf = [] := List.length_eq_zero.mp hbuf
    have ho : out = [] := List.length_eq_zero.mp hout
    subst hb ho
    exact ⟨spi, loopback x spi, by simp [bsp_spi_write_buf], by simp [bsp_spi_read_buf]⟩
  · obtain ⟨s₁, tr, hrun, _, hq₁, hm₁, _, hl₁, hc₁, _⟩ :=
      bsp_spi_write_buf_spec fuel addr buf N spi hpos hN (by omega) hidle hc hl hf
    have htake : buf.take N = buf := by rw [← hbuf]; exact List.take_length buf
    rw [hrec, htake, List.nil_append] at hm₁
    obtain ⟨s₂, tr₂, hrun₂, _⟩ :=
      bsp_spi_read_buf_spec fuel addr out N (loopback x s₁) x buf [] hpos (by omega)
        (by simpa [loopback] using hq₁) (by simp only [loopback]; omega)
        (by simp only [loopback]; omega) (by simp [loopback, hm₁]) hbuf
    have hdrop : out.drop N = [] := by rw [← hout]; exact List.drop_length out
    rw [map_mod_of_lt buf hbytes, hdrop, List.append_nil] at hrun₂
    exact ⟨s₁, s₂, hrun, hrun₂⟩

theorem bsp_spi_write_read_roundtrip_witness :
    (∃ (spi₁ spi₂ : NRF_SPI_Type),
      bsp_spi_write_buf 1 0x10 [] 0 (idleBus 0 []) = some spi₁ ∧
      bsp_spi_read_buf 1 0x10 [] 0 (loopback 0xEE spi₁) = some ([], spi₂)) ∧
    (∃ (spi₁ spi₂ : NRF_SPI_Type),
      bsp_spi_write_buf 2 0x10 [0xAA] 1 (idleBus 0 []) = some spi₁ ∧
      bsp_spi_read_buf 2 0x10 [0] 1 (loopback 0xEE spi₁) = some ([0xAA], spi₂)) ∧
    (∃ (spi₁ spi₂ : NRF_SPI_Type),
      bsp_spi_write_buf 9 0x10 [1, 2, 3, 4, 5, 6, 7, 8] 8 (idleBus 0 []) = some spi₁ ∧
      bsp_spi_read_buf 9 0x10 (List.replicate 8 0) 8 (loopback 0xEE spi₁) =
        some ([1, 2, 3, 4, 5, 6, 7, 8], spi₂)) ∧
    (∃ (spi₁ spi₂ : NRF_SPI_Type),
      bsp_spi_write_buf 256 0x10 (List.replicate 255 0x55) 255 (idleBus 0 []) = some spi₁ ∧
      bsp_spi_read_buf 256 0x10 (List.replicate 255 0) 255 (loopback 0xEE spi₁) =
        some (List.replicate 255 0x55, spi₂)) :=
  ⟨bsp_spi_write_read_roundtrip 1 0x10 [] [] 0 0xEE (idleBus 0 []) (by decide) rfl rfl
      (by decide) rfl rfl (by decide) (by decide) (by decide),
    bsp_spi_write_read_roundtrip 2 0x10 [0xAA] [0] 1 0xEE (idleBus 0 []) (by decide) rfl rfl
      (by decide) rfl rfl (by decide) (by decide) (by decide),
    bsp_spi_write_read_roundtrip 9 0x10 [1, 2, 3, 4, 5, 6, 7, 8] (List.replicate 8 0) 8 0xEE
      (idleBus 0 []) (by decide) rfl rfl (by decide) rfl rfl (by decide) (by decide)
      (by decide),
    bsp_spi_write_read_roundtrip 256 0x10 (List.replicate 255 0x55) (List.replicate 255 0)
      255 0xEE (idleBus 0 []) (by decide) (List.length_replicate _ _)
      (List.length_replicate _ _)
      (by intro b hb; rw [List.eq_of_mem_replicate hb]; decide) rfl rfl (by decide)
      (by decide) (by decide)⟩

/-- C4: for every address byte, buffer and bus state (and every bound on the
polls, zero included), `bsp_spi_read_buf` and `bsp_spi_write_buf` called with
`size = 0` return at once with the buffer and the whole bus state unchanged:
the access log is the same, so no register was written, read or cleared. -/
theorem bsp_spi_size_zero_noop (fuel addr : Nat) (buf : List Nat) (spi : NRF_SPI_Type) :
    bsp_spi_read_buf fuel addr buf 0 spi = some (buf, spi) ∧
    bsp_spi_write_buf fuel addr buf 0 spi = some spi := by
  simp [bsp_spi_read_buf, bsp_spi_write_buf]

/-- C10: evaluation of `bsp_spi_write_buf(0x10, [0xAA], 1)` on an idle bus
whose slave answers 7 and 8. After each completed wait the routine reads
`RXD` first and clears the ready event afterwards, in the loop and in the
final drain; the order "clear, then read" does not hold for it. The sibling
`bsp_spi_read_buf` on the same bus clears the event before it reads `RXD`. -/
theorem bsp_spi_write_buf_reads_before_clear :
    (bsp_spi_write_buf 2 0x10 [0xAA] 1 (idleBus 0 [7, 8])).map (fun s => s.log) =
      some [Access.wrEVENTS_READY 0, Access.wrTXD 0x10,
            Access.wrTXD 0xAA, Access.rdEVENTS_READY 1, Access.rdRXD 7,
            Access.wrEVENTS_READY 0,
            Access.rdEVENTS_READY 1, Access.rdRXD 8, Access.wrEVENTS_READY 0] ∧
    (bsp_spi_write_buf 2 0x10 [0xAA] 1 (idleBus 0 [7, 8])).map
      (fun s => drainsClearThenRead s.log) = some false ∧
    (bsp_spi_write_buf 2 0x10 [0xAA] 1 (idleBus 0 [7, 8])).map
      (fun s => drainsReadThenClear s.log) = some true ∧
    (bsp_spi_read_buf 2 0x10 [0] 1 (idleBus 0 [7, 8])).map
      (fun r => drainsClearThenRead r.2.log) = some true := by
  decide

end HalBsp
